import Mathlib

/-!
# immudb: detached launcher and service lifecycle command

A shallow embedding of `cmd/helper/detached.go` and
`cmd/immuadmin/command/service/service.go`.

Each Go function is a pure Lean function from the answers of its collaborators
(operating system, process table, daemon registry, terminal) to a `Run`: the
chronological list of collaborator calls it makes, and how it ends (a returned
Go `error`, `nil`, or a runtime panic).
-/

namespace Immudb

/-- A Go `error` value. `daem.ErrNotInstalled` is the sentinel the uninstall
action compares against; every other error is identified by its message. -/
inductive GoError where
  | errNotInstalled
  | msg (text : String)
  deriving DecidableEq, Repr

/-- How a Go function ends: it returns its `error` result (`none` is `nil`),
or the runtime panics. -/
inductive Outcome where
  | returned (err : Option GoError)
  | panic (reason : String)
  deriving DecidableEq, Repr

/-- The calls made, oldest first, and the outcome. -/
structure Run (ε : Type) where
  trace : List ε
  outcome : Outcome
  deriving DecidableEq, Repr

/-- Record one call, then continue. -/
def emit {ε : Type} (e : ε) (r : Run ε) : Run ε :=
  { trace := e :: r.trace, outcome := r.outcome }

/-- The statement `return err`. -/
def ret {ε : Type} (err : Option GoError) : Run ε :=
  { trace := [], outcome := Outcome.returned err }

/-- A runtime panic: nothing further is executed. -/
def crash {ε : Type} (reason : String) : Run ε :=
  { trace := [], outcome := Outcome.panic reason }

/-- Go's `strconv.Itoa`. -/
def Itoa (i : Int) : String := toString i

/-! ## package helper (`cmd/helper/detached.go`) -/

namespace helper

/-- The constant `DetachedFlag` (line 31). -/
def DetachedFlag : String := "detached"

/-- The constant `DetachedShortFlag` (line 34). -/
def DetachedShortFlag : String := "d"

/-- One entry of the process table (`ps.Process`): `Pid()` and `Executable()`. -/
structure PsProcess where
  pid : Int
  executable : String
  deriving DecidableEq, Repr

/-- Substring test on character lists. -/
def hasInfix : List Char → List Char → Bool
  | [], sub => sub.isPrefixOf []
  | c :: cs, sub => sub.isPrefixOf (c :: cs) || hasInfix cs sub

/-- Go's `strings.Contains(s, substr)`. -/
def stringsContains (s substr : String) : Bool :=
  hasInfix s.toList substr.toList

/-- The calls `Detached` makes to its collaborators. -/
inductive Event where
  | osExecutable
  | psProcesses
  | command (name : String) (arg : List String)
  | cmdStart
  | sleep (seconds : Nat)
  | fprintf (format : String) (args : List String)
  deriving DecidableEq, Repr

/-- What the collaborators of `plauncher` answer during one call.
`app` is the constant `version.App`; `green`, `blue`, `reset` are the colour
constants of the package and `base` is `filepath.Base`. -/
structure World where
  app : String
  osArgs : List String
  executable : Except GoError String
  processes : Except GoError (List PsProcess)
  start : String → List String → Except GoError Int
  green : String
  blue : String
  reset : String
  base : String → String

/-- The loop of `Process`: the first entry whose executable contains the name. -/
def scan (processName : String) : List PsProcess → Bool × Option PsProcess × Option GoError
  | [] => (false, none, none)
  | p1 :: ps =>
    if stringsContains p1.executable processName then (true, some p1, none)
    else scan processName ps

/-- The method `Process` of `plauncher` (lines 94-105): it returns `found`, `p` and `err`. -/
def Process (w : World) (processName : String) : Bool × Option PsProcess × Option GoError :=
  match w.processes with
  | .error err => (false, none, some err)
  | .ok ps => scan processName ps

/-- The loop of `Detached` over `os.Args`, from index `i`, appending to `args`. -/
def rebuild : Nat → List String → List String → List String
  | _, [], args => args
  | i, k :: ks, args =>
    if k != "--" ++ DetachedFlag && k != "-" ++ DetachedShortFlag && i != 0 then
      rebuild (i + 1) ks (args ++ [k])
    else
      rebuild (i + 1) ks args

/-- The argument list `Detached` builds from `os.Args`. -/
def detachedArgs (osArgs : List String) : List String :=
  rebuild 0 osArgs []

/-- The error `fmt.Errorf("%s is already running. Pid %d", version.App, p.Pid())`. -/
def alreadyRunning (app : String) (pid : Int) : GoError :=
  GoError.msg (app ++ " is already running. Pid " ++ toString pid)

/-- The method `Detached` of `plauncher` (lines 60-91). -/
def Detached (w : World) : Run Event :=
  emit Event.osExecutable <|
  match w.executable with
  | .error err => ret (some err)
  | .ok executable =>
    emit Event.psProcesses <|
    match Process w w.app with
    | (true, some p, _) => ret (some (alreadyRunning w.app p.pid))
    | (true, none, _) => crash "nil pointer dereference"
    | (false, _, _) =>
      let args := detachedArgs w.osArgs
      emit (Event.command executable args) <|
      emit Event.cmdStart <|
      match w.start executable args with
      | .error err => ret (some err)
      | .ok pid =>
        emit (Event.sleep 1) <|
        emit (Event.fprintf "%s%s has been started with %sPID %d%s\n"
          [w.green, w.base executable, w.blue, toString pid, w.reset]) <|
        ret none

/-- A concrete launcher environment: the product is `immudb`, the process was
started as `immudb --detached --port 3322 -d`, its path resolves, the process
table holds no instance, and starting the child yields pid 4242. -/
def freshWorld : World where
  app := "immudb"
  osArgs := ["./immudb", "--detached", "--port", "3322", "-d"]
  executable := .ok "/usr/sbin/immudb"
  processes := .ok [{ pid := 1, executable := "systemd" }, { pid := 77, executable := "bash" }]
  start := fun _ _ => .ok 4242
  green := "<green>"
  blue := "<blue>"
  reset := "<reset>"
  base := fun _ => "immudb"

/-- The same environment with two running instances in the process table. -/
def busyWorld : World :=
  { freshWorld with
    processes := .ok [{ pid := 1, executable := "systemd" },
      { pid := 311, executable := "immudb.exe" }, { pid := 412, executable := "immudb" }] }

/-- The environment of `freshWorld` when `ps.Processes()` fails (an instance
of `immudb` may well be running: the table cannot be read). -/
def blindWorld : World :=
  { freshWorld with processes := .error (GoError.msg "open /proc: permission denied") }

end helper

/-! ## package service (`cmd/immuadmin/command/service/service.go`) -/

namespace service

/-- The variable `installableServices` (line 33). -/
def installableServices : List String := ["immudb", "immugw"]

/-- The variable `availableCommands` (line 34). -/
def availableCommands : List String :=
  ["install", "uninstall", "start", "stop", "restart", "status"]

/-- The function `stringInSlice` (lines 263-270). -/
def stringInSlice (a : String) : List String → Bool
  | [] => false
  | b :: list => if b == a then true else stringInSlice a list

/-- How `%v` prints a `[]string`. -/
def fmtSlice (list : List String) : String :=
  "[" ++ " ".intercalate list ++ "]"

/-- The error of line 57, for the service argument `a0`. -/
def invalidService (a0 : String) : GoError :=
  GoError.msg ("invalid service argument specified: " ++ a0 ++ ". Available list is "
    ++ fmtSlice installableServices)

/-- The error of line 60, for the command argument `a1`. -/
def invalidCommand (a1 : String) : GoError :=
  GoError.msg ("invalid command argument specified: " ++ a1 ++ ". Available list is "
    ++ fmtSlice availableCommands)

/-- The `Args` validator of the command; `osArgs` is the global `os.Args`. -/
def Args (osArgs args : List String) : Option GoError :=
  match args with
  | [] => some (GoError.msg "required a service name")
  | a0 :: rest =>
    if stringInSlice "--remove-files" osArgs then none
    else
      match rest with
      | [] => some (GoError.msg "required a command name")
      | a1 :: _ =>
        if !stringInSlice a0 installableServices then some (invalidService a0)
        else if !stringInSlice a1 availableCommands then some (invalidCommand a1)
        else none

/-- The parsed persistent flags of the command (lines 255-259). They are
registered with these types, so the typed getters cannot fail. -/
structure Flags where
  removeFiles : Bool
  time : Int
  delayed : Int
  localFile : String

/-- The answers of one `daem.Daemon`: each call returns a message and an error. -/
structure Daemon where
  install : List String → String × Option GoError
  start : String × Option GoError
  stop : String × Option GoError
  status : String × Option GoError
  remove : String × Option GoError

/-- The answers of `cl.sservice` and `cl.treader` during one run.
`readFromTerminalYN n def` is the answer to the `n`-th prompt of the run. -/
structure Commandline where
  isAdmin : Bool × Option GoError
  getExecutable : String → String → Except GoError String
  getDefaultExecPath : String → Except GoError String
  copyExecInOsDefault : String → Except GoError String
  newDaemon : String → String → String → Except GoError Daemon
  installSetup : String → Option GoError
  getDefaultConfigPath : String → Except GoError String
  isRunning : String → Bool
  eraseData : String → Option GoError
  removeProgramFiles : String → Option GoError
  uninstallSetup : String → Option GoError
  readFromTerminalYN : Nat → String → Except GoError String

/-- The process-level environment: `os.Args`, whether `strconv.ParseFloat(k, 64)`
returns a nil error, the result of starting a command (`launch`), and the
result of `os.Remove`. -/
structure Env where
  osArgs : List String
  parseFloatOk : String → Bool
  launch : String → List String → Option GoError
  osRemove : String → Option GoError

/-- The calls `RunE` makes. Daemon calls record the message and error they got. -/
inductive Event where
  | isAdmin
  | launch (command : String) (args : List String)
  | sleep (nanoseconds : Int)
  | getExecutable (localFile service : String)
  | getDefaultExecPath (localFile : String)
  | copyExecInOsDefault (localFile : String)
  | osRemove (path : String)
  | newDaemon (name description execPath : String)
  | fprintf (format : String) (args : List String)
  | readFromTerminalYN (dflt : String)
  | installSetup (service : String)
  | getDefaultConfigPath (service : String)
  | daemonInstall (args : List String) (msg : String) (err : Option GoError)
  | daemonStart (msg : String) (err : Option GoError)
  | daemonStop (msg : String) (err : Option GoError)
  | daemonStatus (msg : String) (err : Option GoError)
  | daemonRemove (msg : String) (err : Option GoError)
  | isRunning (status : String)
  | eraseData (service : String)
  | removeProgramFiles (service : String)
  | uninstallSetup (service : String)
  deriving DecidableEq, Repr

/-- A token that the rewrite of lines 75-85 keeps: it is neither `--time` nor
`-t`, and `strconv.ParseFloat` rejects it. -/
def survives (parseFloatOk : String → Bool) (k : String) : Bool :=
  !(k == "--time" || k == "-t") && !parseFloatOk k

/-- The loop of lines 75-85 over `os.Args`, from index `i`, appending to `argi`. -/
def strip (parseFloatOk : String → Bool) : Nat → List String → List String → List String
  | _, [], argi => argi
  | i, k :: ks, argi =>
    if k == "--time" || k == "-t" then strip parseFloatOk (i + 1) ks argi
    else if parseFloatOk k then strip parseFloatOk (i + 1) ks argi
    else if i != 0 then strip parseFloatOk (i + 1) ks (argi ++ [k])
    else strip parseFloatOk (i + 1) ks argi

/-- The argument list of the relaunched command for the delay `t` (lines 74-87). -/
def delayedArgs (env : Env) (t : Int) : List String :=
  strip env.parseFloatOk 0 env.osArgs [] ++ ["--delayed"] ++ [Itoa t]

/-- The function `launch` (lines 272-278): build the command and start it. -/
def launch (env : Env) (command : String) (args : List String) : Run Event :=
  emit (Event.launch command args) <|
  match env.launch command args with
  | some err => ret (some err)
  | none => ret none

/-- Lines 72-92: relaunch the same command with `--delayed`. -/
def relaunch (env : Env) (t : Int) : Run Event :=
  let argi := delayedArgs env t
  match env.osArgs with
  | [] => crash "index out of range [0] with length 0"
  | command :: _ => launch env command argi

/-- Case `install` of the switch (lines 143-173). -/
def caseInstall (cl : Commandline) (daemon : Daemon) (a0 localFile : String) : Run Event :=
  let proceed : Run Event :=
    emit (Event.fprintf ("installing " ++ localFile ++ "...\n") []) <|
    emit (Event.installSetup a0) <|
    match cl.installSetup a0 with
    | some err => ret (some err)
    | none =>
      emit (Event.getDefaultConfigPath a0) <|
      match cl.getDefaultConfigPath a0 with
      | .error err => ret (some err)
      | .ok cp =>
        emit (Event.daemonInstall ["--config", cp]
          (daemon.install ["--config", cp]).1 (daemon.install ["--config", cp]).2) <|
        match (daemon.install ["--config", cp]).2 with
        | some err => ret (some err)
        | none =>
          emit (Event.fprintf ((daemon.install ["--config", cp]).1 ++ "\n") []) <|
          emit (Event.daemonStart daemon.start.1 daemon.start.2) <|
          match daemon.start.2 with
          | some err => ret (some err)
          | none =>
            emit (Event.fprintf (daemon.start.1 ++ "\n") []) <|
            ret none
  if a0 == "immugw" then
    emit (Event.fprintf ("To provide the maximum level of security, we recommend running "
      ++ "immugw on a different machine than immudb server. Continue ? [Y/n]") []) <|
    emit (Event.readFromTerminalYN "Y") <|
    match cl.readFromTerminalYN 0 "Y" with
    | .error err => ret (some err)
    | .ok u =>
      if u != "y" then
        emit (Event.fprintf "No action\n" []) <|
        ret none
      else proceed
  else proceed

/-- Lines 215-222: the end of case `uninstall`. -/
def removeFiles (cl : Commandline) (a0 : String) : Run Event :=
  emit (Event.removeProgramFiles a0) <|
  match cl.removeProgramFiles a0 with
  | some err => ret (some err)
  | none =>
    emit (Event.fprintf "Program files removed\n" []) <|
    emit (Event.uninstallSetup a0) <|
    match cl.uninstallSetup a0 with
    | some err => ret (some err)
    | none => ret none

/-- Lines 189-222: case `uninstall` from the confirmation prompt on; `msg` is the
current value of the variable `msg`. -/
def confirmUninstall (cl : Commandline) (daemon : Daemon) (a0 msg : String) : Run Event :=
  emit (Event.fprintf "Are you sure you want to uninstall %s? [y/N]" [a0]) <|
  emit (Event.readFromTerminalYN "N") <|
  match cl.readFromTerminalYN 0 "N" with
  | .error err => ret (some err)
  | .ok u =>
    if u != "y" then
      emit (Event.fprintf (msg ++ "\n") []) <|
      ret none
    else
      emit (Event.daemonRemove daemon.remove.1 daemon.remove.2) <|
      match daemon.remove.2 with
      | some err => ret (some err)
      | none =>
        emit (Event.fprintf (daemon.remove.1 ++ "\n") []) <|
        if a0 == "immudb" then
          emit (Event.fprintf "Erase data? [y/N]" []) <|
          emit (Event.readFromTerminalYN "N") <|
          match cl.readFromTerminalYN 1 "N" with
          | .error err => ret (some err)
          | .ok u =>
            if u != "y" then
              emit (Event.fprintf "No data removed\n" []) <|
              removeFiles cl a0
            else
              emit (Event.eraseData a0) <|
              match cl.eraseData a0 with
              | some err => ret (some err)
              | none =>
                emit (Event.fprintf "Data folder removed\n" []) <|
                removeFiles cl a0
        else removeFiles cl a0

/-- Lines 183-188: stop the service first when it is running. -/
def stopIfRunning (cl : Commandline) (daemon : Daemon) (a0 status : String) : Run Event :=
  emit (Event.isRunning status) <|
  if cl.isRunning status then
    emit (Event.daemonStop daemon.stop.1 daemon.stop.2) <|
    match daemon.stop.2 with
    | some err => ret (some err)
    | none =>
      emit (Event.fprintf (daemon.stop.1 ++ "\n") []) <|
      confirmUninstall cl daemon a0 daemon.stop.1
  else confirmUninstall cl daemon a0 ""

/-- Case `uninstall` of the switch (lines 174-222). -/
def caseUninstall (cl : Commandline) (daemon : Daemon) (a0 : String) : Run Event :=
  emit (Event.daemonStatus daemon.status.1 daemon.status.2) <|
  match daemon.status.2 with
  | some err =>
    if err = GoError.errNotInstalled then ret (some err)
    else stopIfRunning cl daemon a0 daemon.status.1
  | none => stopIfRunning cl daemon a0 daemon.status.1

/-- Case `start` of the switch (lines 223-228). -/
def caseStart (daemon : Daemon) : Run Event :=
  emit (Event.daemonStart daemon.start.1 daemon.start.2) <|
  match daemon.start.2 with
  | some err => ret (some err)
  | none =>
    emit (Event.fprintf (daemon.start.1 ++ "\n") []) <|
    ret none

/-- Case `stop` of the switch (lines 229-234). -/
def caseStop (daemon : Daemon) : Run Event :=
  emit (Event.daemonStop daemon.stop.1 daemon.stop.2) <|
  match daemon.stop.2 with
  | some err => ret (some err)
  | none =>
    emit (Event.fprintf (daemon.stop.1 ++ "\n") []) <|
    ret none

/-- Case `restart` of the switch (lines 235-244). The message of `Stop` is
discarded, so the first line printed is the still empty `msg`. -/
def caseRestart (daemon : Daemon) : Run Event :=
  emit (Event.daemonStop daemon.stop.1 daemon.stop.2) <|
  match daemon.stop.2 with
  | some err => ret (some err)
  | none =>
    emit (Event.fprintf ("" ++ "\n") []) <|
    emit (Event.daemonStart daemon.start.1 daemon.start.2) <|
    match daemon.start.2 with
    | some err => ret (some err)
    | none =>
      emit (Event.fprintf (daemon.start.1 ++ "\n") []) <|
      ret none

/-- Case `status` of the switch (lines 245-250). -/
def caseStatus (daemon : Daemon) : Run Event :=
  emit (Event.daemonStatus daemon.status.1 daemon.status.2) <|
  match daemon.status.2 with
  | some err => ret (some err)
  | none =>
    emit (Event.fprintf (daemon.status.1 ++ "\n") []) <|
    ret none

/-- The switch on `args[1]` (lines 142-252). -/
def dispatch (cl : Commandline) (daemon : Daemon) (a0 a1 localFile : String) : Run Event :=
  if a1 == "install" then caseInstall cl daemon a0 localFile
  else if a1 == "uninstall" then caseUninstall cl daemon a0
  else if a1 == "start" then caseStart daemon
  else if a1 == "stop" then caseStop daemon
  else if a1 == "restart" then caseRestart daemon
  else if a1 == "status" then caseStatus daemon
  else ret none

/-- Lines 129-139: the `remove-files` escape hatch, then the daemon and the switch. -/
def withExecPath (cl : Commandline) (env : Env) (fl : Flags) (a0 a1 localFile execPath : String) :
    Run Event :=
  if fl.removeFiles then
    emit (Event.osRemove execPath) <|
    match env.osRemove execPath with
    | some err => ret (some err)
    | none => ret none
  else
    emit (Event.newDaemon a0 a0 execPath) <|
    match cl.newDaemon a0 a0 execPath with
    | .error err => ret (some err)
    | .ok daemon => dispatch cl daemon a0 a1 localFile

/-- Lines 112-126, with `localFile` as left by lines 103-110. -/
def resolvePaths (cl : Commandline) (env : Env) (fl : Flags) (a0 a1 localFile : String) :
    Run Event :=
  emit (Event.getDefaultExecPath localFile) <|
  match cl.getDefaultExecPath localFile with
  | .error err => ret (some err)
  | .ok execPath =>
    let localFile := if stringInSlice "--remove-files" env.osArgs then fl.localFile else localFile
    if a1 == "install" then
      emit (Event.copyExecInOsDefault localFile) <|
      match cl.copyExecInOsDefault localFile with
      | .error err => ret (some err)
      | .ok execPath => withExecPath cl env fl a0 a1 localFile execPath
    else withExecPath cl env fl a0 a1 localFile execPath

/-- Lines 99-252: the lifecycle action. `args[1]` is read first (line 103),
`args[0]` only after it. -/
def lifecycle (cl : Commandline) (env : Env) (fl : Flags) (args : List String) : Run Event :=
  match args.get? 1 with
  | none => crash ("index out of range [1] with length " ++ toString args.length)
  | some a1 =>
    match args.get? 0 with
    | none => crash "index out of range [0] with length 0"
    | some a0 =>
      if a1 == "install" then
        emit (Event.getExecutable fl.localFile a0) <|
        match cl.getExecutable fl.localFile a0 with
        | .error err => ret (some err)
        | .ok localFile => resolvePaths cl env fl a0 a1 localFile
      else resolvePaths cl env fl a0 a1 ""

/-- The value of an `int64` expression: the mathematical result wrapped into
the range from `-2^63` to `2^63 - 1`. -/
def wrapInt64 (x : Int) : Int :=
  (x + 9223372036854775808) % 18446744073709551616 - 9223372036854775808

/-- The duration `time.Duration(d) * time.Second` in nanoseconds, an `int64`
product that wraps for large `d`. -/
def seconds (d : Int) : Int :=
  wrapInt64 (d * 1000000000)

/-- Lines 94-97: when the flag `delayed` is positive, call `time.Sleep` with
`time.Duration(d) * time.Second`; `time.Sleep` returns at once for a duration
that is not positive. -/
def delay (d : Int) (next : Run Event) : Run Event :=
  if d > 0 then emit (Event.sleep (seconds d)) next else next

/-- The `RunE` function of the command (lines 64-253). -/
def RunE (cl : Commandline) (env : Env) (fl : Flags) (args : List String) : Run Event :=
  emit Event.isAdmin <|
  if !cl.isAdmin.1 then ret cl.isAdmin.2
  else if fl.time > 0 then relaunch env fl.time
  else delay fl.delayed (lifecycle cl env fl args)

/-- How cobra executes the command: the `Args` validator runs on the positional
arguments first, and `RunE` is called only when it returns nil. -/
def execute (cl : Commandline) (env : Env) (fl : Flags) (args : List String) : Run Event :=
  match Args env.osArgs args with
  | some err => ret (some err)
  | none => RunE cl env fl args

/-- Whether an event is a `Stop` or a `Start` of the daemon. -/
def Event.isStopStart : Event → Bool
  | Event.daemonStart _ _ => true
  | Event.daemonStop _ _ => true
  | _ => false

/-- Whether an event belongs to the steps before the switch: the privilege
check, the sleep, the path resolution, the file removal and `NewDaemon`. -/
def Event.isSetup : Event → Bool
  | Event.isAdmin => true
  | Event.sleep _ => true
  | Event.getDefaultExecPath _ => true
  | Event.osRemove _ => true
  | Event.newDaemon _ _ _ => true
  | _ => false

/-- The value of the variable `localFile` at the switch, for an action other
than `install` (lines 100 and 116-120). -/
def localFileAtSwitch (env : Env) (fl : Flags) : String :=
  if stringInSlice "--remove-files" env.osArgs then fl.localFile else ""

/-- An instance of the `ParseFloat` answer for the concrete runs below: plain
decimal numerals (an optional sign, digits, at most one point, at least one
digit, at most 300 characters), all of which `strconv.ParseFloat` parses
without error. The other spellings `ParseFloat` accepts (exponents,
hexadecimal, underscores, `Inf`, `NaN`) are outside this instance; the general
theorems hold for every answer function. -/
def plainDecimal (k : String) : Bool :=
  let body : List Char :=
    match k.toList with
    | '+' :: cs => cs
    | '-' :: cs => cs
    | cs => cs
  decide (body.length ≤ 300) && body.any Char.isDigit
    && body.all (fun c => c.isDigit || c == '.') && decide (body.count '.' ≤ 1)

/-- A process environment with the given `os.Args`, in which starting a command
and removing a file succeed. -/
def shellEnv (osArgs : List String) : Env where
  osArgs := osArgs
  parseFloatOk := plainDecimal
  launch := fun _ _ => none
  osRemove := fun _ => none

/-- A daemon whose five operations answer `stop`, `start` and success for the rest. -/
def daemonWith (stop start : String × Option GoError) : Daemon where
  install := fun _ => ("Install immudb: [  OK  ]", none)
  start := start
  stop := stop
  status := ("Service (pid  4242) is running...", none)
  remove := ("Removing immudb: [  OK  ]", none)

/-- A command line run by an administrator (or not), on the given daemon, with
the terminal answers `first` and `second` to the first and second prompt, and
every other collaborator succeeding. -/
def commandlineWith (admin : Bool × Option GoError) (daemon : Daemon) (first second : String) :
    Commandline where
  isAdmin := admin
  getExecutable := fun localFile _ => .ok localFile
  getDefaultExecPath := fun _ => .ok "/usr/sbin/immudb"
  copyExecInOsDefault := fun _ => .ok "/usr/sbin/immudb"
  newDaemon := fun _ _ _ => .ok daemon
  installSetup := fun _ => none
  getDefaultConfigPath := fun _ => .ok "/etc/immudb/immudb.toml"
  isRunning := fun status => helper.stringsContains status "is running"
  eraseData := fun _ => none
  removeProgramFiles := fun _ => none
  uninstallSetup := fun _ => none
  readFromTerminalYN := fun n _ => if n = 0 then .ok first else .ok second

/-- A daemon whose `Stop` fails. -/
def stuckDaemon : Daemon :=
  daemonWith ("Stopping immudb: [ FAIL ]", some (GoError.msg "stop: exit status 1"))
    ("Starting immudb: [  OK  ]", none)

/-- A daemon whose `Stop` succeeds and whose `Start` fails. -/
def deadDaemon : Daemon :=
  daemonWith ("Stopping immudb: [  OK  ]", none)
    ("Starting immudb: [ FAIL ]", some (GoError.msg "start: exit status 5"))

/-- A healthy daemon. -/
def healthyDaemon : Daemon :=
  daemonWith ("Stopping immudb: [  OK  ]", none) ("Starting immudb: [  OK  ]", none)

/-- An administrator on a healthy daemon who answers `y` and then `n`. -/
def rootCommandline : Commandline :=
  commandlineWith (true, none) healthyDaemon "y" "n"

/-- A caller without privileges. -/
def guestCommandline : Commandline :=
  commandlineWith (false, some (GoError.msg "you must have root user privileges"))
    healthyDaemon "y" "n"

/-- The flags with the given `time` and `remove-files`, the others at their default. -/
def flagsWith (time : Int) (removeFiles : Bool) : Flags where
  removeFiles := removeFiles
  time := time
  delayed := 0
  localFile := ""

end service

/-! ## Theorems: package helper -/

namespace helper

theorem longFlag_eq : "--" ++ DetachedFlag = "--detached" := by decide

theorem shortFlag_eq : "-" ++ DetachedShortFlag = "-d" := by decide

/-- Past index 0 the loop appends exactly the tokens that are not a detached flag. -/
theorem rebuild_succ (i : Nat) (ks args : List String) :
    rebuild (i + 1) ks args
      = args ++ ks.filter (fun k => k != "--detached" && k != "-d") := by
  induction ks generalizing i args with
  | nil => simp [rebuild]
  | cons k ks ih =>
    unfold rebuild
    rw [longFlag_eq, shortFlag_eq]
    cases hk : (k != "--detached" && k != "-d")
    · simp [ih, List.filter_cons, hk]
    · simp [ih, List.filter_cons, hk]

/-- The rebuilt list is the tail of `os.Args` without the detached flags. -/
theorem detachedArgs_eq (osArgs : List String) :
    detachedArgs osArgs
      = (osArgs.drop 1).filter (fun k => k != "--detached" && k != "-d") := by
  cases osArgs with
  | nil => simp [detachedArgs, rebuild]
  | cons k ks =>
    unfold detachedArgs rebuild
    simp [rebuild_succ]

/-- The loop of `Process` returns the first matching entry of the table. -/
theorem scan_eq_find (processName : String) (ps : List PsProcess) :
    scan processName ps
      = match ps.find? (fun q => stringsContains q.executable processName) with
        | some p => (true, some p, none)
        | none => (false, none, none) := by
  induction ps with
  | nil => simp [scan]
  | cons q qs ih =>
    unfold scan
    cases hq : stringsContains q.executable processName
    · simp [List.find?_cons, hq, ih]
    · simp [List.find?_cons, hq]

/-- C1. For every original argument vector, the list `Detached` builds is the
arguments after index 0 with every `--detached` and `-d` removed and the others
in their original order; it contains neither token; and it is the list passed
to `Execs.Command` whenever `Detached` builds the new process. -/
theorem detached_rebuilds_arguments (w : World) :
    detachedArgs w.osArgs
        = (w.osArgs.drop 1).filter (fun k => k != "--detached" && k != "-d")
    ∧ "--detached" ∉ detachedArgs w.osArgs
    ∧ "-d" ∉ detachedArgs w.osArgs
    ∧ ∀ name arg, Event.command name arg ∈ (Detached w).trace →
        arg = detachedArgs w.osArgs := by
  refine ⟨detachedArgs_eq _, ?_, ?_, ?_⟩
  · rw [detachedArgs_eq]; simp [List.mem_filter]
  · rw [detachedArgs_eq]; simp [List.mem_filter]
  · intro name arg h
    unfold Detached at h
    cases hexe : w.executable with
    | error err => simp [hexe, emit, ret] at h
    | ok exe =>
      simp only [hexe] at h
      split at h
      · simp [emit, ret] at h
      · simp [emit, crash] at h
      · cases hst : w.start exe (detachedArgs w.osArgs) with
        | error err => simp [hst, emit, ret] at h; exact h.2
        | ok pid => simp [hst, emit, ret] at h; exact h.2

/-- C1, on a concrete run: started as `immudb --detached --port 3322 -d`, the
child is built with `--port 3322`. -/
theorem detached_rebuilds_arguments_witness :
    Event.command "/usr/sbin/immudb" ["--port", "3322"] ∈ (Detached freshWorld).trace
    ∧ detachedArgs freshWorld.osArgs = ["--port", "3322"] := by
  have h := (detached_rebuilds_arguments freshWorld).1
  refine ⟨by decide, ?_⟩
  rw [h]
  decide

/-- C2. For every process table whose first entry with an executable name
containing `version.App` is `p`, the executable path having resolved (the
precondition of the launch): `Detached` returns the already-running error
carrying `p`'s pid, having only resolved the path and queried the process
table; it never builds or starts a process. -/
theorem duplicate_detection (w : World) (ps : List PsProcess) (p : PsProcess) (exe : String)
    (hexe : w.executable = .ok exe) (htable : w.processes = .ok ps)
    (hfirst : ps.find? (fun q => stringsContains q.executable w.app) = some p) :
    Detached w = { trace := [Event.osExecutable, Event.psProcesses],
                   outcome := Outcome.returned (some (alreadyRunning w.app p.pid)) }
    ∧ (∀ name arg, Event.command name arg ∉ (Detached w).trace)
    ∧ Event.cmdStart ∉ (Detached w).trace := by
  have hproc : Process w w.app = (true, some p, none) := by
    simp [Process, htable, scan_eq_find, hfirst]
  simp [Detached, hexe, hproc, emit, ret]

/-- C2, on a concrete table: the first match `immudb.exe` (pid 311) is
reported, not the later `immudb` (pid 412). -/
theorem duplicate_detection_witness :
    Detached busyWorld
      = { trace := [Event.osExecutable, Event.psProcesses],
          outcome := Outcome.returned (some (GoError.msg "immudb is already running. Pid 311")) } :=
  (duplicate_detection busyWorld
      [{ pid := 1, executable := "systemd" },
        { pid := 311, executable := "immudb.exe" }, { pid := 412, executable := "immudb" }]
      { pid := 311, executable := "immudb.exe" } "/usr/sbin/immudb" rfl rfl (by decide)).1

/-- C3, the code at the failing input: `ps.Processes()` fails while an instance
of `immudb` is running. `Process` reports the error, `Detached` drops it
(line 69), builds and starts a second instance and returns nil; the paths of
lines 65-67 and 83-85 return their errors. -/
theorem query_failure_starts_process :
    Process blindWorld blindWorld.app
      = (false, none, some (GoError.msg "open /proc: permission denied"))
    ∧ Detached blindWorld
      = { trace := [Event.osExecutable, Event.psProcesses,
            Event.command "/usr/sbin/immudb" ["--port", "3322"], Event.cmdStart, Event.sleep 1,
            Event.fprintf "%s%s has been started with %sPID %d%s\n"
              ["<green>", "immudb", "<blue>", "4242", "<reset>"]],
          outcome := Outcome.returned none }
    ∧ (Detached blindWorld).outcome
      ≠ Outcome.returned (some (GoError.msg "open /proc: permission denied")) :=
  ⟨rfl, by decide, by decide⟩

end helper

/-! ## Theorems: package service -/

namespace service

/-- Past index 0 the loop appends the tokens that are neither a time flag nor a number. -/
theorem strip_succ (pf : String → Bool) (i : Nat) (ks argi : List String) :
    strip pf (i + 1) ks argi = argi ++ ks.filter (survives pf) := by
  induction ks generalizing i argi with
  | nil => simp [strip]
  | cons k ks ih =>
    unfold strip
    cases ht : (k == "--time" || k == "-t") <;> cases hp : pf k
    · have hs : survives pf k = true := by unfold survives; rw [ht, hp]; rfl
      simp [ih, List.filter_cons, hs]
    · have hs : survives pf k = false := by unfold survives; rw [ht, hp]; rfl
      simp [ih, List.filter_cons, hs]
    · have hs : survives pf k = false := by unfold survives; rw [ht, hp]; rfl
      simp [ih, List.filter_cons, hs]
    · have hs : survives pf k = false := by unfold survives; rw [ht, hp]; rfl
      simp [ih, List.filter_cons, hs]

/-- The token at index 0 is never appended. -/
theorem strip_zero (pf : String → Bool) (k : String) (ks : List String) :
    strip pf 0 (k :: ks) [] = ks.filter (survives pf) := by
  unfold strip
  cases ht : (k == "--time" || k == "-t") <;> cases hp : pf k <;> simp [strip_succ]

/-- The rewritten argument list, for process arguments `prog :: rest`. -/
theorem delayedArgs_eq (env : Env) (t : Int) (prog : String) (rest : List String)
    (hargs : env.osArgs = prog :: rest) :
    delayedArgs env t = rest.filter (survives env.parseFloatOk) ++ ["--delayed", Itoa t] := by
  simp [delayedArgs, hargs, strip_zero]

/-- With privileges and a positive time flag, `RunE` is the relaunch. -/
theorem RunE_relaunch (cl : Commandline) (env : Env) (fl : Flags) (args : List String)
    (prog : String) (rest : List String)
    (hadmin : cl.isAdmin.1 = true) (ht : 0 < fl.time) (hargs : env.osArgs = prog :: rest) :
    RunE cl env fl args
      = { trace := [Event.isAdmin, Event.launch prog (delayedArgs env fl.time)],
          outcome := Outcome.returned (env.launch prog (delayedArgs env fl.time)) } := by
  unfold RunE relaunch launch
  cases hl : env.launch prog (delayedArgs env fl.time) <;>
    simp [hadmin, ht, hargs, hl, emit, ret]

/-- C4. For every privileged invocation whose time flag is `t > 0` (the process
arguments being `prog :: rest`), `RunE` only checks the privileges and starts
one child: `prog` with the arguments of `rest` that are neither `--time`, `-t`
nor a number, followed by `--delayed` and the decimal form of `t`; it returns
what the launch returns. No sleep, resolver call or daemon operation occurs. -/
theorem delay_request_relaunches (cl : Commandline) (env : Env) (fl : Flags)
    (args : List String) (prog : String) (rest : List String)
    (hadmin : cl.isAdmin.1 = true) (ht : 0 < fl.time) (hargs : env.osArgs = prog :: rest) :
    RunE cl env fl args
      = { trace := [Event.isAdmin,
            Event.launch prog
              (rest.filter (survives env.parseFloatOk) ++ ["--delayed", Itoa fl.time])],
          outcome := Outcome.returned
            (env.launch prog
              (rest.filter (survives env.parseFloatOk) ++ ["--delayed", Itoa fl.time])) } := by
  rw [RunE_relaunch cl env fl args prog rest hadmin ht hargs,
    delayedArgs_eq env fl.time prog rest hargs]

/-- C4, on the example of the specification: `prog immudb restart --time 10`
respawns `prog` with `immudb restart --delayed 10` and returns nil. -/
theorem delay_request_relaunches_witness :
    RunE rootCommandline (shellEnv ["prog", "immudb", "restart", "--time", "10"])
        (flagsWith 10 false) ["immudb", "restart"]
      = { trace := [Event.isAdmin,
            Event.launch "prog" ["immudb", "restart", "--delayed", "10"]],
          outcome := Outcome.returned none } := by
  have h := delay_request_relaunches rootCommandline
    (shellEnv ["prog", "immudb", "restart", "--time", "10"]) (flagsWith 10 false)
    ["immudb", "restart"] "prog" ["immudb", "restart", "--time", "10"] rfl (by decide) rfl
  rw [h]
  decide

/-- C5, the code at the failing input `prog immudb restart --time=10` (time
flag 10): the token `--time=10` is neither `--time`, `-t` nor a number, so it is
handed to the child; the child, whose flags are then time = 10 and delayed = 10,
relaunches again instead of running the action. The spellings `-t=10` and
`-t10` are kept in the same way. -/
theorem time_flag_survives_rewrite :
    RunE rootCommandline (shellEnv ["prog", "immudb", "restart", "--time=10"])
        (flagsWith 10 false) ["immudb", "restart"]
      = { trace := [Event.isAdmin,
            Event.launch "prog" ["immudb", "restart", "--time=10", "--delayed", "10"]],
          outcome := Outcome.returned none }
    ∧ RunE rootCommandline
        (shellEnv ["prog", "immudb", "restart", "--time=10", "--delayed", "10"])
        { removeFiles := false, time := 10, delayed := 10, localFile := "" }
        ["immudb", "restart"]
      = { trace := [Event.isAdmin,
            Event.launch "prog"
              ["immudb", "restart", "--time=10", "--delayed", "--delayed", "10"]],
          outcome := Outcome.returned none }
    ∧ delayedArgs (shellEnv ["prog", "immudb", "restart", "-t=10"]) 10
      = ["immudb", "restart", "-t=10", "--delayed", "10"]
    ∧ delayedArgs (shellEnv ["prog", "immudb", "restart", "-t10"]) 10
      = ["immudb", "restart", "-t10", "--delayed", "10"] := by
  decide

/-- C7 as stated fails: with `--remove-files` among the process arguments the
validator accepts the unknown service `bogus`, and the command removes the
executable and returns nil instead of an invalid-service error. -/
theorem unknown_service_counterexample :
    stringInSlice "bogus" installableServices = false
    ∧ Args ["immuadmin", "service", "bogus", "start", "--remove-files"] ["bogus", "start"] = none
    ∧ execute rootCommandline
        (shellEnv ["immuadmin", "service", "bogus", "start", "--remove-files"])
        (flagsWith 0 true) ["bogus", "start"]
      = { trace := [Event.isAdmin, Event.getDefaultExecPath "",
            Event.osRemove "/usr/sbin/immudb"],
          outcome := Outcome.returned none } := by
  decide

/-- C7, amended. For every invocation whose process arguments do not contain
`--remove-files` and whose positional arguments are a service name other than
`immudb` and `immugw` followed by an action and anything else, the command
fails validation with the invalid-service error, which lists the allowed
services, and nothing is called: no daemon is created and no daemon operation
is invoked. -/
theorem unknown_service_rejected (cl : Commandline) (env : Env) (fl : Flags)
    (a0 a1 : String) (rest : List String)
    (hflag : stringInSlice "--remove-files" env.osArgs = false)
    (h1 : a0 ≠ "immudb") (h2 : a0 ≠ "immugw") :
    execute cl env fl (a0 :: a1 :: rest)
      = { trace := [], outcome := Outcome.returned (some (invalidService a0)) }
    ∧ invalidService a0
      = GoError.msg ("invalid service argument specified: " ++ a0
          ++ ". Available list is [immudb immugw]") := by
  have hs : stringInSlice a0 installableServices = false := by
    simp [installableServices, stringInSlice, Ne.symm h1, Ne.symm h2]
  refine ⟨?_, ?_⟩
  · simp [execute, Args, hflag, hs, ret]
  · have hl : fmtSlice installableServices = "[immudb immugw]" := by decide
    have hcat : ". Available list is " ++ "[immudb immugw]"
        = ". Available list is [immudb immugw]" := by decide
    rw [invalidService, hl, String.append_assoc, hcat]

/-- C7, amended, on a concrete run: `immuadmin service bogus start`. -/
theorem unknown_service_rejected_witness :
    execute rootCommandline (shellEnv ["immuadmin", "service", "bogus", "start"])
        (flagsWith 0 false) ["bogus", "start"]
      = { trace := [],
          outcome := Outcome.returned (some (GoError.msg
            "invalid service argument specified: bogus. Available list is [immudb immugw]")) } := by
  have h := unknown_service_rejected rootCommandline
    (shellEnv ["immuadmin", "service", "bogus", "start"]) (flagsWith 0 false)
    "bogus" "start" [] (by decide) (by decide) (by decide)
  rw [h.1, h.2]
  decide

/-- C9 as stated fails: for an unprivileged caller and the unknown service
`bogus`, the command reports the invalid-service error, and `IsAdmin` is not
even called; with the action missing it reports the missing command name. -/
theorem privilege_check_counterexample :
    guestCommandline.isAdmin = (false, some (GoError.msg "you must have root user privileges"))
    ∧ execute guestCommandline (shellEnv ["immuadmin", "service", "bogus", "start"])
        (flagsWith 0 false) ["bogus", "start"]
      = { trace := [], outcome := Outcome.returned (some (invalidService "bogus")) }
    ∧ execute guestCommandline (shellEnv ["immuadmin", "service", "immudb"])
        (flagsWith 0 false) ["immudb"]
      = { trace := [], outcome := Outcome.returned (some (GoError.msg "required a command name")) }
    ∧ invalidService "bogus" ≠ GoError.msg "you must have root user privileges" := by
  decide

/-- C9, amended. When `IsAdmin` reports false with error `e`: `RunE` fails with
`e` for every argument list, the privilege check being its only call; the
command as a whole reports a validation error of `Args` first when there is one,
and `e` exactly when the validator accepts the arguments. -/
theorem privilege_check_after_validation (cl : Commandline) (env : Env) (fl : Flags)
    (args : List String) (e : Option GoError) (hadmin : cl.isAdmin = (false, e)) :
    RunE cl env fl args = { trace := [Event.isAdmin], outcome := Outcome.returned e }
    ∧ execute cl env fl args
      = match Args env.osArgs args with
        | some v => { trace := [], outcome := Outcome.returned (some v) }
        | none => { trace := [Event.isAdmin], outcome := Outcome.returned e } := by
  have hrun : RunE cl env fl args
      = { trace := [Event.isAdmin], outcome := Outcome.returned e } := by
    simp [RunE, hadmin, emit, ret]
  refine ⟨hrun, ?_⟩
  unfold execute
  cases hv : Args env.osArgs args with
  | none => simp [hrun]
  | some v => simp [ret]

/-- C9, amended, on a concrete run: an unprivileged `immuadmin service immudb
restart` passes validation and fails with the privilege error. -/
theorem privilege_check_after_validation_witness :
    execute guestCommandline (shellEnv ["immuadmin", "service", "immudb", "restart"])
        (flagsWith 0 false) ["immudb", "restart"]
      = { trace := [Event.isAdmin],
          outcome := Outcome.returned (some (GoError.msg "you must have root user privileges")) } := by
  have h := (privilege_check_after_validation guestCommandline
    (shellEnv ["immuadmin", "service", "immudb", "restart"]) (flagsWith 0 false)
    ["immudb", "restart"] (some (GoError.msg "you must have root user privileges")) rfl).2
  rw [h]
  decide

/-- C10, the code at the failing input `immuadmin service immudb --remove-files`
run by an administrator: the validator accepts the single positional argument,
and `RunE` panics reading `args[1]` right after the privilege check. -/
theorem run_reads_past_accepted_args :
    Args ["immuadmin", "service", "immudb", "--remove-files"] ["immudb"] = none
    ∧ execute rootCommandline (shellEnv ["immuadmin", "service", "immudb", "--remove-files"])
        (flagsWith 0 true) ["immudb"]
      = { trace := [Event.isAdmin],
          outcome := Outcome.panic "index out of range [1] with length 1" } := by
  decide

/-- A privileged, immediate run of an action other than `install` either makes
only setup calls (the `remove-files` flag is set, the path does not resolve, or
`NewDaemon` fails), or makes setup calls and then runs the switch on the daemon
that `NewDaemon` returned for the resolved path. -/
theorem RunE_cases (cl : Commandline) (env : Env) (fl : Flags) (a0 a1 : String)
    (rest : List String) (hadmin : cl.isAdmin.1 = true) (htime : fl.time ≤ 0)
    (hne : (a1 == "install") = false) :
    (((∃ err, cl.getDefaultExecPath "" = .error err) ∨ fl.removeFiles = true
        ∨ ∃ p err, cl.getDefaultExecPath "" = .ok p ∧ cl.newDaemon a0 a0 p = .error err)
      ∧ ∀ ev ∈ (RunE cl env fl (a0 :: a1 :: rest)).trace, ev.isSetup = true)
    ∨ (∃ p d pre, fl.removeFiles = false ∧ cl.getDefaultExecPath "" = .ok p
        ∧ cl.newDaemon a0 a0 p = .ok d ∧ (∀ ev ∈ pre, ev.isSetup = true)
        ∧ RunE cl env fl (a0 :: a1 :: rest)
          = { trace := pre ++ (dispatch cl d a0 a1 (localFileAtSwitch env fl)).trace,
              outcome := (dispatch cl d a0 a1 (localFileAtSwitch env fl)).outcome }) := by
  have ht : ¬ (0 < fl.time) := by omega
  have hrun : RunE cl env fl (a0 :: a1 :: rest)
      = emit Event.isAdmin (delay fl.delayed (resolvePaths cl env fl a0 a1 "")) := by
    simp [RunE, hadmin, ht, lifecycle, hne]
  rw [hrun]
  unfold resolvePaths
  cases hp : cl.getDefaultExecPath "" with
  | error err =>
    left
    refine ⟨Or.inl ⟨err, rfl⟩, ?_⟩
    by_cases hd : 0 < fl.delayed <;> simp [delay, hd, emit, ret, Event.isSetup]
  | ok p =>
    simp only [hne]
    unfold withExecPath
    cases hr : fl.removeFiles with
    | true =>
      left
      refine ⟨Or.inr (Or.inl rfl), ?_⟩
      cases hrm : env.osRemove p <;> by_cases hd : 0 < fl.delayed <;>
        simp [delay, hd, hrm, emit, ret, Event.isSetup]
    | false =>
      cases hnd : cl.newDaemon a0 a0 p with
      | error err =>
        left
        refine ⟨Or.inr (Or.inr ⟨p, err, rfl, hnd⟩), ?_⟩
        by_cases hd : 0 < fl.delayed <;> simp [delay, hd, emit, ret, Event.isSetup]
      | ok d =>
        right
        by_cases hd : 0 < fl.delayed
        · refine ⟨p, d, [Event.isAdmin, Event.sleep (seconds fl.delayed), Event.getDefaultExecPath "",
            Event.newDaemon a0 a0 p], rfl, rfl, hnd, ?_, ?_⟩
          · simp [Event.isSetup]
          · simp [delay, hd, emit, localFileAtSwitch]
        · refine ⟨p, d, [Event.isAdmin, Event.getDefaultExecPath "",
            Event.newDaemon a0 a0 p], rfl, rfl, hnd, ?_, ?_⟩
          · simp [Event.isSetup]
          · simp [delay, hd, emit, localFileAtSwitch]

/-- A setup call is neither a `Stop` nor a `Start`. -/
theorem not_isStopStart_of_isSetup (ev : Event) (h : ev.isSetup = true) :
    ev.isStopStart = false := by
  cases ev <;> simp_all [Event.isSetup, Event.isStopStart]

/-- The switch runs case `restart` on the action `restart`. -/
theorem dispatch_restart (cl : Commandline) (d : Daemon) (a0 localFile : String) :
    dispatch cl d a0 "restart" localFile = caseRestart d := by
  have h1 : ("restart" == "install") = false := by decide
  have h2 : ("restart" == "uninstall") = false := by decide
  have h3 : ("restart" == "start") = false := by decide
  have h4 : ("restart" == "stop") = false := by decide
  have h5 : ("restart" == "restart") = true := by decide
  simp only [dispatch, h1, h2, h3, h4, h5]
  simp

/-- C6. For every privileged, immediate restart (of any service name, known
ones included). Once the run has its daemon (no `remove-files` flag, the path
resolves and `NewDaemon` succeeds), `Stop` is invoked first; if `Stop` returns
an error, it is the only `Stop` or `Start` call and the command returns exactly
that error; if `Stop` succeeds, `Start` is invoked next, these two are the only
`Stop` and `Start` calls, and the command returns what `Start` returns (its
error when it fails). On every run, whatever the collaborators answer: a `Start`
is preceded by a successful `Stop` with no `Stop` or `Start` before it; a failed
`Stop` excludes any `Start` and its error is the one returned; a failed `Start`
after a successful `Stop` is the error returned and no further `Stop` or `Start`
is made. -/
theorem restart_ordering (cl : Commandline) (env : Env) (fl : Flags) (svc : String)
    (rest : List String) (hadmin : cl.isAdmin.1 = true) (htime : fl.time = 0) :
    (∀ p d, fl.removeFiles = false → cl.getDefaultExecPath "" = .ok p →
        cl.newDaemon svc svc p = .ok d →
        (∀ e0, d.stop.2 = some e0 →
          (RunE cl env fl (svc :: "restart" :: rest)).trace.filter Event.isStopStart
            = [Event.daemonStop d.stop.1 (some e0)]
          ∧ (RunE cl env fl (svc :: "restart" :: rest)).outcome
            = Outcome.returned (some e0))
        ∧ (d.stop.2 = none →
          (RunE cl env fl (svc :: "restart" :: rest)).trace.filter Event.isStopStart
            = [Event.daemonStop d.stop.1 none, Event.daemonStart d.start.1 d.start.2]
          ∧ (RunE cl env fl (svc :: "restart" :: rest)).outcome
            = Outcome.returned d.start.2))
    ∧ (∀ m1 e1, Event.daemonStart m1 e1 ∈ (RunE cl env fl (svc :: "restart" :: rest)).trace →
      ∃ pre post m0,
        (RunE cl env fl (svc :: "restart" :: rest)).trace
          = pre ++ Event.daemonStop m0 none :: post
        ∧ Event.daemonStart m1 e1 ∈ post ∧ ∀ ev ∈ pre, ev.isStopStart = false)
    ∧ (∀ m0 e0,
        Event.daemonStop m0 (some e0) ∈ (RunE cl env fl (svc :: "restart" :: rest)).trace →
        (∀ m1 e1,
          Event.daemonStart m1 e1 ∉ (RunE cl env fl (svc :: "restart" :: rest)).trace)
        ∧ (RunE cl env fl (svc :: "restart" :: rest)).outcome = Outcome.returned (some e0))
    ∧ (∀ m0 m1 e1,
        Event.daemonStop m0 none ∈ (RunE cl env fl (svc :: "restart" :: rest)).trace →
        Event.daemonStart m1 (some e1) ∈ (RunE cl env fl (svc :: "restart" :: rest)).trace →
        (RunE cl env fl (svc :: "restart" :: rest)).outcome = Outcome.returned (some e1)
        ∧ (RunE cl env fl (svc :: "restart" :: rest)).trace.filter Event.isStopStart
          = [Event.daemonStop m0 none, Event.daemonStart m1 (some e1)]) := by
  have hsetup : ∀ (l : List Event), (∀ ev ∈ l, ev.isSetup = true) →
      (∀ m e, Event.daemonStart m e ∉ l) ∧ (∀ m e, Event.daemonStop m e ∉ l) := by
    intro l hl
    refine ⟨?_, ?_⟩ <;> intro m e hmem <;> simpa [Event.isSetup] using hl _ hmem
  have hquiet : ∀ (l : List Event), (∀ ev ∈ l, ev.isSetup = true) →
      l.filter Event.isStopStart = [] := by
    intro l hl
    rw [List.filter_eq_nil_iff]
    intro ev hev
    simp [not_isStopStart_of_isSetup ev (hl ev hev)]
  rcases RunE_cases cl env fl svc "restart" rest hadmin (by omega) (by decide) with
    ⟨hwhy, h⟩ | ⟨p, d, pre, hrm, hp, hd, hpre, hrun⟩
  · obtain ⟨hs1, hs2⟩ := hsetup _ h
    refine ⟨?_, fun m1 e1 hm => absurd hm (hs1 m1 e1), fun m0 e0 hm => absurd hm (hs2 m0 _),
      fun m0 m1 e1 hm => absurd hm (hs2 m0 _)⟩
    intro p d hrm hp hd
    rcases hwhy with ⟨err, herr⟩ | hflag | ⟨p1, err, hp1, herr⟩
    · rw [hp] at herr; cases herr
    · rw [hrm] at hflag; cases hflag
    · rw [hp] at hp1; cases hp1
      rw [hd] at herr; cases herr
  · obtain ⟨hs1, hs2⟩ := hsetup pre hpre
    have hq := hquiet pre hpre
    have hlast : ∀ p1 d1, fl.removeFiles = false → cl.getDefaultExecPath "" = .ok p1 →
        cl.newDaemon svc svc p1 = .ok d1 → d1 = d := by
      intro p1 d1 _ hp1 hd1
      rw [hp] at hp1; cases hp1
      rw [hd] at hd1; cases hd1
      rfl
    rw [hrun, dispatch_restart]
    unfold caseRestart
    cases hstop : d.stop.2 with
    | some e =>
      simp only [emit, ret]
      refine ⟨?_, ?_, ?_, ?_⟩
      · intro p1 d1 h1 h2 h3
        rw [hlast p1 d1 h1 h2 h3]
        refine ⟨?_, ?_⟩
        · intro e0 he0
          rw [hstop] at he0
          cases he0
          simp [List.filter_append, hq, List.filter_cons, Event.isStopStart]
        · intro hnone
          rw [hstop] at hnone
          cases hnone
      · intro m1 e1 hm
        simp [hs1] at hm
      · intro m0 e0 hm
        simp [hs2, hs1] at hm ⊢
        exact hm.2.symm
      · intro m0 m1 e1 hm
        simp [hs2] at hm
    | none =>
      have hfirst : ∀ p1 d1, fl.removeFiles = false → cl.getDefaultExecPath "" = .ok p1 →
          cl.newDaemon svc svc p1 = .ok d1 → ∀ e0, d1.stop.2 = some e0 → False := by
        intro p1 d1 h1 h2 h3 e0 he0
        rw [hlast p1 d1 h1 h2 h3, hstop] at he0
        cases he0
      cases hstart : d.start.2 with
      | some e =>
        simp only [emit, ret]
        refine ⟨?_, ?_, ?_, ?_⟩
        · intro p1 d1 h1 h2 h3
          refine ⟨fun e0 he0 => (hfirst p1 d1 h1 h2 h3 e0 he0).elim, ?_⟩
          intro _
          rw [hlast p1 d1 h1 h2 h3, hstart]
          simp [List.filter_append, hq, List.filter_cons, Event.isStopStart]
        · intro m1 e1 hm
          simp [hs1] at hm
          refine ⟨pre, _, d.stop.1, rfl, ?_, fun ev hev => not_isStopStart_of_isSetup ev (hpre ev hev)⟩
          simp [hm]
        · intro m0 e0 hm
          simp [hs2] at hm
        · intro m0 m1 e1 h0 h1
          simp [hs2] at h0
          simp [hs1] at h1
          simp [List.filter_append, hq, List.filter_cons, Event.isStopStart, h0, h1]
      | none =>
        simp only [emit, ret]
        refine ⟨?_, ?_, ?_, ?_⟩
        · intro p1 d1 h1 h2 h3
          refine ⟨fun e0 he0 => (hfirst p1 d1 h1 h2 h3 e0 he0).elim, ?_⟩
          intro _
          rw [hlast p1 d1 h1 h2 h3, hstart]
          simp [List.filter_append, hq, List.filter_cons, Event.isStopStart]
        · intro m1 e1 hm
          simp [hs1] at hm
          refine ⟨pre, _, d.stop.1, rfl, ?_, fun ev hev => not_isStopStart_of_isSetup ev (hpre ev hev)⟩
          simp [hm]
        · intro m0 e0 hm
          simp [hs2] at hm
        · intro m0 m1 e1 h0 h1
          simp [hs1] at h1

/-- C6, on concrete runs of `immuadmin service immudb restart` by an
administrator. Healthy daemon: `Stop`, then `Start`, and nil is returned.
`Stop` fails: no `Start`, and the error of `Stop` is returned. `Start` fails
after a successful `Stop`: the error of `Start` is returned. -/
theorem restart_ordering_witness :
    ((RunE rootCommandline
          (shellEnv ["immuadmin", "service", "immudb", "restart"]) (flagsWith 0 false)
          ["immudb", "restart"]).trace.filter Event.isStopStart
        = [Event.daemonStop "Stopping immudb: [  OK  ]" none,
            Event.daemonStart "Starting immudb: [  OK  ]" none]
      ∧ (RunE rootCommandline
          (shellEnv ["immuadmin", "service", "immudb", "restart"]) (flagsWith 0 false)
          ["immudb", "restart"]).outcome = Outcome.returned none)
    ∧ ((RunE (commandlineWith (true, none) stuckDaemon "y" "n")
          (shellEnv ["immuadmin", "service", "immudb", "restart"]) (flagsWith 0 false)
          ["immudb", "restart"]).trace.filter Event.isStopStart
        = [Event.daemonStop "Stopping immudb: [ FAIL ]"
            (some (GoError.msg "stop: exit status 1"))]
      ∧ (RunE (commandlineWith (true, none) stuckDaemon "y" "n")
          (shellEnv ["immuadmin", "service", "immudb", "restart"]) (flagsWith 0 false)
          ["immudb", "restart"]).outcome
        = Outcome.returned (some (GoError.msg "stop: exit status 1")))
    ∧ ((RunE (commandlineWith (true, none) deadDaemon "y" "n")
          (shellEnv ["immuadmin", "service", "immudb", "restart"]) (flagsWith 0 false)
          ["immudb", "restart"]).trace.filter Event.isStopStart
        = [Event.daemonStop "Stopping immudb: [  OK  ]" none,
            Event.daemonStart "Starting immudb: [ FAIL ]"
              (some (GoError.msg "start: exit status 5"))]
      ∧ (RunE (commandlineWith (true, none) deadDaemon "y" "n")
          (shellEnv ["immuadmin", "service", "immudb", "restart"]) (flagsWith 0 false)
          ["immudb", "restart"]).outcome
        = Outcome.returned (some (GoError.msg "start: exit status 5"))) :=
  ⟨((restart_ordering rootCommandline
      (shellEnv ["immuadmin", "service", "immudb", "restart"]) (flagsWith 0 false)
      "immudb" [] rfl rfl).1 "/usr/sbin/immudb" healthyDaemon rfl rfl rfl).2 rfl,
   ((restart_ordering (commandlineWith (true, none) stuckDaemon "y" "n")
      (shellEnv ["immuadmin", "service", "immudb", "restart"]) (flagsWith 0 false)
      "immudb" [] rfl rfl).1 "/usr/sbin/immudb" stuckDaemon rfl rfl rfl).1
      (GoError.msg "stop: exit status 1") rfl,
   ((restart_ordering (commandlineWith (true, none) deadDaemon "y" "n")
      (shellEnv ["immuadmin", "service", "immudb", "restart"]) (flagsWith 0 false)
      "immudb" [] rfl rfl).1 "/usr/sbin/immudb" deadDaemon rfl rfl rfl).2 rfl⟩

/-- The switch runs case `uninstall` on the action `uninstall`. -/
theorem dispatch_uninstall (cl : Commandline) (d : Daemon) (a0 localFile : String) :
    dispatch cl d a0 "uninstall" localFile = caseUninstall cl d a0 := by
  have h1 : ("uninstall" == "install") = false := by decide
  have h2 : ("uninstall" == "uninstall") = true := by decide
  simp only [dispatch, h1, h2]
  simp

/-- The end of case `uninstall` for `immudb` when the operator confirms the
removal and declines the data erasure, and the collaborators succeed. -/
theorem confirmUninstall_declined (cl : Commandline) (d : Daemon) (msg u : String)
    (hyes : cl.readFromTerminalYN 0 "N" = .ok "y")
    (hno : cl.readFromTerminalYN 1 "N" = .ok u) (hu : u ≠ "y")
    (hremove : d.remove.2 = none)
    (hfiles : cl.removeProgramFiles "immudb" = none)
    (hsetup : cl.uninstallSetup "immudb" = none) :
    confirmUninstall cl d "immudb" msg
      = { trace := [Event.fprintf "Are you sure you want to uninstall %s? [y/N]" ["immudb"],
            Event.readFromTerminalYN "N",
            Event.daemonRemove d.remove.1 none,
            Event.fprintf (d.remove.1 ++ "\n") [],
            Event.fprintf "Erase data? [y/N]" [],
            Event.readFromTerminalYN "N",
            Event.fprintf "No data removed\n" [],
            Event.removeProgramFiles "immudb",
            Event.fprintf "Program files removed\n" [],
            Event.uninstallSetup "immudb"],
          outcome := Outcome.returned none } := by
  have h1 : ("y" != "y") = false := by decide
  have h2 : (u != "y") = true := by simpa using hu
  have h3 : ("immudb" == "immudb") = true := by decide
  simp only [confirmUninstall, removeFiles, hyes, hno, hremove, hfiles, hsetup, h1, h2, h3]
  simp [emit, ret]

/-- Case `uninstall` up to the confirmation prompt, when `Status` and `Stop` succeed. -/
theorem caseUninstall_reaches_confirm (cl : Commandline) (d : Daemon) (a0 : String)
    (hstatus : d.status.2 = none) (hstop : d.stop.2 = none) :
    ∃ pre msg, (∀ s, Event.eraseData s ∉ pre)
      ∧ (∀ m e, Event.daemonRemove m e ∉ pre)
      ∧ caseUninstall cl d a0
        = { trace := pre ++ (confirmUninstall cl d a0 msg).trace,
            outcome := (confirmUninstall cl d a0 msg).outcome } := by
  unfold caseUninstall stopIfRunning
  cases hrun : cl.isRunning d.status.1 with
  | true =>
    refine ⟨[Event.daemonStatus d.status.1 none, Event.isRunning d.status.1,
      Event.daemonStop d.stop.1 none, Event.fprintf (d.stop.1 ++ "\n") []], d.stop.1, ?_, ?_, ?_⟩
    · simp
    · simp
    · simp [hstatus, hstop, emit]
  | false =>
    refine ⟨[Event.daemonStatus d.status.1 none, Event.isRunning d.status.1], "", ?_, ?_, ?_⟩
    · simp
    · simp
    · simp [hstatus, emit]

/-- C8. For every privileged, immediate uninstall of `immudb` (the
`remove-files` flag not set) in which the operator answers `y` to the uninstall
prompt and something other than `y` to the erase-data prompt, and the
collaborators succeed: `Remove` is invoked, `RemoveProgramFiles` is invoked
after it, `EraseData` is never invoked, and the command returns nil. -/
theorem uninstall_keeps_data (cl : Commandline) (env : Env) (fl : Flags)
    (rest : List String) (p u : String) (d : Daemon)
    (hadmin : cl.isAdmin.1 = true) (htime : fl.time = 0)
    (hflag : fl.removeFiles = false)
    (hpath : cl.getDefaultExecPath "" = .ok p)
    (hdaemon : cl.newDaemon "immudb" "immudb" p = .ok d)
    (hstatus : d.status.2 = none) (hstop : d.stop.2 = none) (hremove : d.remove.2 = none)
    (hfiles : cl.removeProgramFiles "immudb" = none)
    (hsetup : cl.uninstallSetup "immudb" = none)
    (hyes : cl.readFromTerminalYN 0 "N" = .ok "y")
    (hno : cl.readFromTerminalYN 1 "N" = .ok u) (hu : u ≠ "y") :
    (∃ pre mid post,
      (RunE cl env fl ("immudb" :: "uninstall" :: rest)).trace
        = pre ++ (Event.daemonRemove d.remove.1 none :: mid)
            ++ (Event.removeProgramFiles "immudb" :: post)
      ∧ ∀ m e, Event.daemonRemove m e ∉ pre)
    ∧ (∀ s, Event.eraseData s ∉ (RunE cl env fl ("immudb" :: "uninstall" :: rest)).trace)
    ∧ (RunE cl env fl ("immudb" :: "uninstall" :: rest)).outcome = Outcome.returned none := by
  rcases RunE_cases cl env fl "immudb" "uninstall" rest hadmin (by omega) (by decide) with
    ⟨hwhy, -⟩ | ⟨p1, d1, pre, -, hp1, hd1, hpre, hrun⟩
  · rcases hwhy with ⟨err, herr⟩ | hset | ⟨p1, err, hp1, herr⟩
    · rw [hpath] at herr; cases herr
    · rw [hflag] at hset; cases hset
    · rw [hpath] at hp1; cases hp1
      rw [hdaemon] at herr; cases herr
  · rw [hpath] at hp1
    cases hp1
    rw [hdaemon] at hd1
    cases hd1
    obtain ⟨pre2, msg, herase, hrem, hcase⟩ :=
      caseUninstall_reaches_confirm cl d "immudb" hstatus hstop
    have hpre_erase : ∀ s, Event.eraseData s ∉ pre := by
      intro s hs
      simpa [Event.isSetup] using hpre _ hs
    have hpre_rem : ∀ m e, Event.daemonRemove m e ∉ pre := by
      intro m e hs
      simpa [Event.isSetup] using hpre _ hs
    rw [hrun, dispatch_uninstall, hcase,
      confirmUninstall_declined cl d msg u hyes hno hu hremove hfiles hsetup]
    refine ⟨⟨pre ++ pre2 ++ [Event.fprintf "Are you sure you want to uninstall %s? [y/N]"
        ["immudb"], Event.readFromTerminalYN "N"],
      [Event.fprintf (d.remove.1 ++ "\n") [], Event.fprintf "Erase data? [y/N]" [],
        Event.readFromTerminalYN "N", Event.fprintf "No data removed\n" []],
      [Event.fprintf "Program files removed\n" [], Event.uninstallSetup "immudb"], ?_, ?_⟩,
      ?_, rfl⟩
    · simp
    · intro m e hm
      simp [hpre_rem, hrem] at hm
    · intro s hs
      simp [hpre_erase, herase] at hs

/-- C8, on a concrete run: `immuadmin service immudb uninstall` by an
administrator who answers `y`, then `n`. -/
theorem uninstall_keeps_data_witness :
    (∀ s, Event.eraseData s ∉ (RunE rootCommandline
        (shellEnv ["immuadmin", "service", "immudb", "uninstall"]) (flagsWith 0 false)
        ["immudb", "uninstall"]).trace)
    ∧ (RunE rootCommandline
        (shellEnv ["immuadmin", "service", "immudb", "uninstall"]) (flagsWith 0 false)
        ["immudb", "uninstall"]).outcome = Outcome.returned none
    ∧ (RunE rootCommandline
        (shellEnv ["immuadmin", "service", "immudb", "uninstall"]) (flagsWith 0 false)
        ["immudb", "uninstall"]).trace.filter
          (fun ev => ev == Event.daemonRemove "Removing immudb: [  OK  ]" none
            || ev == Event.removeProgramFiles "immudb")
      = [Event.daemonRemove "Removing immudb: [  OK  ]" none,
          Event.removeProgramFiles "immudb"] :=
  ⟨(uninstall_keeps_data rootCommandline
      (shellEnv ["immuadmin", "service", "immudb", "uninstall"]) (flagsWith 0 false) []
      "/usr/sbin/immudb" "n" healthyDaemon rfl rfl rfl rfl rfl rfl rfl rfl rfl rfl rfl
      rfl (by decide)).2.1,
   (uninstall_keeps_data rootCommandline
      (shellEnv ["immuadmin", "service", "immudb", "uninstall"]) (flagsWith 0 false) []
      "/usr/sbin/immudb" "n" healthyDaemon rfl rfl rfl rfl rfl rfl rfl rfl rfl rfl rfl
      rfl (by decide)).2.2,
   by decide⟩

end service

end Immudb
